import Mathlib

/-!
Shallow embedding of `src/antlr/program/terraform_parser.py`: the
`TerraformListener` tree walk, token resolution, the state file store and the
apply/destroy lifecycle.  Strings are Lean `String`s (lists of characters);
Python `dict[str, str]` is an insertion-ordered association list with unique
keys; the filesystem slot for `terraform.tfstate` is an `Option StateFile`;
the provisioning API is a collaborator record whose read responses are indexed
by the polling attempt, and every remote call is recorded in a trace.
-/

set_option autoImplicit false

namespace TerraformSubset

/-- A Python `dict[str, str]`: ordered association list with unique keys. -/
abbrev Dict := List (String × String)

/-- Python `d.get(k)` / `d[k]`: the value at the first (hence only) matching key. -/
def dlookup : Dict → String → Option String
  | [], _ => none
  | p :: rest, k => if p.1 = k then some p.2 else dlookup rest k

/-- Python `d[k] = v`: overwrite the entry for `k` in place, else append. -/
def dinsert : Dict → String → String → Dict
  | [], k, v => [(k, v)]
  | p :: rest, k, v => if p.1 = k then (k, v) :: rest else p :: dinsert rest k v

/-- Drop leading quote characters from a character list. -/
def dropQuotes : List Char → List Char
  | [] => []
  | c :: cs => if c = '"' then dropQuotes cs else c :: cs

/-- Python `s.strip('"')`: remove all leading and trailing quote characters. -/
def stripQuotes (s : String) : String :=
  ⟨(dropQuotes (dropQuotes s.data).reverse).reverse⟩

/-- Python `s.split(sep)` for a one-character separator, on character lists. -/
def splitChar (sep : Char) : List Char → List (List Char)
  | [] => [[]]
  | c :: cs =>
    match splitChar sep cs with
    | [] => [[]]
    | h :: t => if c = sep then [] :: h :: t else (c :: h) :: t

/-- Python `s.startswith(pre)` on character lists (data first, prefix second). -/
def pyStartsWith : List Char → List Char → Bool
  | _, [] => true
  | [], _ :: _ => false
  | c :: cs, p :: ps => if c = p then pyStartsWith cs ps else false

/-- The exceptions the interpreter raises, one constructor per distinct
`raise` message (plus `keyError` for Python's implicit `KeyError`). -/
inductive TfError where
  | unsupportedProvider (name : String)
  | missingToken
  | undefinedVariable (name : String)
  | missingResource
  | keyError (key : String)
  deriving DecidableEq

/-- One block of the parsed document.  Header string literals carry their raw
token text, quotes included, as `ctx.STRING().getText()` returns them; a body
is the ordered list of `(IDENTIFIER-text, expr-text)` pairs of `body().keyValue()`. -/
inductive Block where
  | variableBlock (name : String) (body : List (String × String))
  | providerBlock (name : String) (body : List (String × String))
  | resourceBlock (rtype : String) (rname : String) (body : List (String × String))
  deriving DecidableEq

/-- The mutable fields of `TerraformListener`.  The source's `self.variables`
is named `vars` here because `variables` is reserved in Lean. -/
structure Listener where
  vars : Dict
  provider_token_expr : Option String
  droplet_config : Dict
  deriving DecidableEq

/-- `TerraformListener.__init__`. -/
def initListener : Listener :=
  { vars := [], provider_token_expr := none, droplet_config := [] }

/-- `TerraformListener.enterVariable`: for each `default` key of the block
body, record the quote-stripped value under the quote-stripped block name. -/
def enterVariable (st : Listener) (name : String) (body : List (String × String)) : Listener :=
  let var_name := stripQuotes name
  body.foldl
    (fun st kv =>
      if kv.1 = "default" then
        { st with vars := dinsert st.vars var_name (stripQuotes kv.2) }
      else st)
    st

/-- `TerraformListener.enterProvider`: reject any provider name other than
`digitalocean`, then store the raw `token` expression (last one wins). -/
def enterProvider (st : Listener) (name : String) (body : List (String × String)) :
    Except TfError Listener :=
  let provider_name := stripQuotes name
  if provider_name ≠ "digitalocean" then
    .error (.unsupportedProvider provider_name)
  else
    .ok (body.foldl
      (fun st kv =>
        if kv.1 = "token" then { st with provider_token_expr := some kv.2 } else st)
      st)

/-- `TerraformListener.enterResource`: skip resources whose type is not
`digitalocean_droplet`; otherwise copy every key with its quote-stripped value
into the droplet config, overwriting duplicates. -/
def enterResource (st : Listener) (rtype : String) (_rname : String)
    (body : List (String × String)) : Listener :=
  if stripQuotes rtype ≠ "digitalocean_droplet" then st
  else
    body.foldl
      (fun st kv =>
        { st with droplet_config := dinsert st.droplet_config kv.1 (stripQuotes kv.2) })
      st

/-- Dispatch of one block to the listener method of its kind. -/
def walkBlock (st : Listener) : Block → Except TfError Listener
  | .variableBlock name body => .ok (enterVariable st name body)
  | .providerBlock name body => enterProvider st name body
  | .resourceBlock rtype rname body => .ok (enterResource st rtype rname body)

/-- The tree walk from a given listener state. -/
def walkFrom (st : Listener) : List Block → Except TfError Listener
  | [] => .ok st
  | b :: bs =>
    match walkBlock st b with
    | .error e => .error e
    | .ok st2 => walkFrom st2 bs

/-- `ParseTreeWalker().walk(listener, tree)` starting from a fresh listener. -/
def walkDoc (doc : List Block) : Except TfError Listener :=
  walkFrom initListener doc

/-- `TerraformListener.resolve_token`: a falsy stored expression (absent or
empty text) is the missing-token error; a `var.`-prefixed expression is looked
up under `split(".")[1]`; anything else is returned quote-stripped. -/
def resolve_token (st : Listener) : Except TfError String :=
  match st.provider_token_expr with
  | none => .error .missingToken
  | some t =>
    if t.data = [] then .error .missingToken
    else if pyStartsWith t.data "var.".data then
      let var_name : String := ⟨((splitChar '.' t.data).drop 1).headD []⟩
      match dlookup st.vars var_name with
      | some v => .ok v
      | none => .error (.undefinedVariable var_name)
    else .ok (stripQuotes t)

/-- One `v4` network entry of a read response (`n["type"]`, `n["ip_address"]`). -/
structure NetworkV4 where
  type : String
  ip_address : String
  deriving DecidableEq

/-- The provisioning API collaborator: `create` maps token and
name/region/size/image payload to the new droplet id; `read` gives the
networks observable at a given polling attempt. -/
structure Api where
  create : String → String → String → String → String → Nat
  read : String → Nat → Nat → List NetworkV4

/-- A remote call against the provisioning API. -/
inductive ApiCall where
  | create (token name region size image : String)
  | read (token : String) (id attempt : Nat)
  | delete (token : String) (id : String)
  deriving DecidableEq

/-- `[n["ip_address"] for n in networks if n["type"] == "public"]`. -/
def publicIps (nets : List NetworkV4) : List String :=
  (nets.filter (fun n => n.type == "public")).map (fun n => n.ip_address)

/-- The readiness-polling loop of `create_droplet` (`while True: ...`),
given `fuel` remaining iterations and the index of the next attempt; the
source's loop is the limit of unbounded fuel. -/
def poll (api : Api) (token : String) (id : Nat) : Nat → Nat → Option String × List ApiCall
  | 0, _ => (none, [])
  | fuel + 1, attempt =>
    match publicIps (api.read token id attempt) with
    | [] =>
      let r := poll api token id fuel (attempt + 1)
      (r.1, .read token id attempt :: r.2)
    | ip :: _ => (some ip, [.read token id attempt])

/-- Outcome of `create_droplet` at a given fuel. -/
inductive CreateResult where
  | ok (id : Nat) (ip : String)
  | stalled
  | keyErr (key : String)
  deriving DecidableEq

/-- `create_droplet`: build the payload (a missing `config[...]` key raises
`KeyError` before any remote call), invoke create, then poll for a public
address. -/
def create_droplet (api : Api) (api_token : String) (config : Dict) (fuel : Nat) :
    CreateResult × List ApiCall :=
  match dlookup config "name", dlookup config "region",
      dlookup config "size", dlookup config "image" with
  | none, _, _, _ => (.keyErr "name", [])
  | _, none, _, _ => (.keyErr "region", [])
  | _, _, none, _ => (.keyErr "size", [])
  | _, _, _, none => (.keyErr "image", [])
  | some n, some r, some s, some i =>
    let droplet_id := api.create api_token n r s i
    let pr := poll api api_token droplet_id fuel 0
    match pr.1 with
    | some ip => (.ok droplet_id ip, .create api_token n r s i :: pr.2)
    | none => (.stalled, .create api_token n r s i :: pr.2)

/-- The attribute mapping persisted for the single droplet instance. -/
structure InstanceAttrs where
  id : String
  name : String
  region : String
  size : String
  image : String
  ipv4_address : String
  deriving DecidableEq

/-- One managed-resource entry of the state file. -/
structure StateResource where
  mode : String
  type : String
  name : String
  provider : String
  instances : List InstanceAttrs
  deriving DecidableEq

/-- The `terraform.tfstate` document. -/
structure StateFile where
  version : Nat
  terraform_version : String
  resources : List StateResource
  deriving DecidableEq

/-- `save_state_file`: serialize the droplet config plus id and address; the
`droplet_config[...]` subscripts raise `KeyError` (modelled as `none`) when a
key is absent.  The id is stringified (`str(droplet_id)`). -/
def save_state_file (droplet_config : Dict) (droplet_id : Nat) (ip : String) :
    Option StateFile :=
  match dlookup droplet_config "name", dlookup droplet_config "region",
      dlookup droplet_config "size", dlookup droplet_config "image" with
  | some n, some r, some s, some i =>
    some
      { version := 4
        terraform_version := "custom"
        resources := [
          { mode := "managed"
            type := "digitalocean_droplet"
            name := "web"
            provider := "digitalocean"
            instances := [
              { id := toString droplet_id
                name := n
                region := r
                size := s
                image := i
                ipv4_address := ip }] }] }
  | _, _, _, _ => none

/-- The record `load_state_file` returns: only id, name and address. -/
structure LoadedInfo where
  id : String
  name : String
  ip : String
  deriving DecidableEq

/-- The `for resource in state.get("resources", [])` loop: first resource
whose `type` is `digitalocean_droplet`. -/
def findDroplet : List StateResource → Option StateResource
  | [] => none
  | r :: rest => if r.type = "digitalocean_droplet" then some r else findDroplet rest

/-- `load_state_file` over the state-file slot: `none` models the missing file
(`FileNotFoundError` → `None`); from a present file, the first droplet
resource's `instances[0]` attributes give the result (an empty instance list,
which the source would fault on, is also mapped to `none`). -/
def load_state_file (fs : Option StateFile) : Option LoadedInfo :=
  match fs with
  | none => none
  | some state =>
    match findDroplet state.resources with
    | none => none
    | some r =>
      match r.instances with
      | [] => none
      | attrs :: _ => some { id := attrs.id, name := attrs.name, ip := attrs.ipv4_address }

/-- `os.remove("terraform.tfstate")` on the state-file slot. -/
def clear_state (_fs : Option StateFile) : Option StateFile := none

/-- Outcome of `terraform_apply`. -/
inductive ApplyResult where
  | success (id : Nat) (ip : String)
  | failure (e : TfError)
  | stalled
  deriving DecidableEq

/-- `terraform_apply` (lexing/parsing of the input file is the excluded
collaborator; `doc` is the resulting block sequence): walk the tree, resolve
the token, require a non-empty droplet config, create and poll, then save
state.  Returns the outcome, the remote calls made, and the state written. -/
def terraform_apply (api : Api) (doc : List Block) (fuel : Nat) :
    ApplyResult × List ApiCall × Option StateFile :=
  match walkDoc doc with
  | .error e => (.failure e, [], none)
  | .ok listener =>
    match resolve_token listener with
    | .error e => (.failure e, [], none)
    | .ok token =>
      if listener.droplet_config = [] then (.failure .missingResource, [], none)
      else
        match create_droplet api token listener.droplet_config fuel with
        | (.keyErr k, calls) => (.failure (.keyError k), calls, none)
        | (.stalled, calls) => (.stalled, calls, none)
        | (.ok id ip, calls) =>
          (.success id ip, calls, save_state_file listener.droplet_config id ip)

/-- Outcome of `terraform_destroy`. -/
inductive DestroyResult where
  | nothingToDo
  | success
  | failure (e : TfError)
  deriving DecidableEq

/-- `terraform_destroy`: load the state first and return early when it is
absent; only then parse the document, resolve the token, delete the droplet
remotely and remove the state file. -/
def terraform_destroy (doc : List Block) (fs : Option StateFile) :
    DestroyResult × List ApiCall × Option StateFile :=
  match load_state_file fs with
  | none => (.nothingToDo, [], fs)
  | some info =>
    match walkDoc doc with
    | .error e => (.failure e, [], fs)
    | .ok listener =>
      match resolve_token listener with
      | .error e => (.failure e, [], fs)
      | .ok token => (.success, [.delete token info.id], clear_state fs)

/-- A concrete provisioning API used to instantiate theorems on closed inputs:
its read responses never report any network. -/
def api0 : Api :=
  { create := fun _ _ _ _ _ => 7, read := fun _ _ _ => [] }

deriving instance DecidableEq for Except

/-- The value at the last occurrence of key `k` in an ordered key/value list,
if any: the specification device for "last occurrence wins". -/
def lastVal (k : String) : List (String × String) → Option String
  | [] => none
  | p :: rest =>
    match lastVal k rest with
    | some v => some v
    | none => if p.1 = k then some p.2 else none

theorem dlookup_dinsert_self (d : Dict) (k v : String) :
    dlookup (dinsert d k v) k = some v := by
  induction d with
  | nil => simp [dinsert, dlookup]
  | cons p rest ih =>
    by_cases h : p.1 = k
    · simp [dinsert, h, dlookup]
    · simp [dinsert, h, dlookup, ih]

theorem dlookup_dinsert_ne (k k' v : String) (h : k' ≠ k) :
    ∀ d : Dict, dlookup (dinsert d k' v) k = dlookup d k := by
  intro d
  induction d with
  | nil =>
    show dlookup [(k', v)] k = none
    simp [dlookup, h]
  | cons p rest ih =>
    show dlookup (if p.1 = k' then (k', v) :: rest else p :: dinsert rest k' v) k = _
    by_cases hp : p.1 = k'
    · rw [if_pos hp]
      show (if k' = k then some v else dlookup rest k)
        = if p.1 = k then some p.2 else dlookup rest k
      rw [if_neg h, if_neg (fun hh => h (hp.symm.trans hh))]
    · rw [if_neg hp]
      show (if p.1 = k then some p.2 else dlookup (dinsert rest k' v) k)
        = if p.1 = k then some p.2 else dlookup rest k
      rw [ih]

theorem dlookup_foldl_dinsert (f : String → String) (k : String) :
    ∀ (body : List (String × String)) (d0 : Dict),
      dlookup (body.foldl (fun d kv => dinsert d kv.1 (f kv.2)) d0) k
        = match lastVal k body with
          | some v => some (f v)
          | none => dlookup d0 k := by
  intro body
  induction body with
  | nil => intro d0; rfl
  | cons kv rest ih =>
    intro d0
    show dlookup (rest.foldl (fun d kv => dinsert d kv.1 (f kv.2)) (dinsert d0 kv.1 (f kv.2))) k = _
    rw [ih]
    cases hl : lastVal k rest with
    | some v => simp [lastVal, hl]
    | none =>
      by_cases hk : kv.1 = k
      · subst hk
        simp [lastVal, hl, dlookup_dinsert_self]
      · simp [lastVal, hl, hk, dlookup_dinsert_ne k kv.1 (f kv.2) hk]

theorem dlookup_foldl_default (nm : String) :
    ∀ (body : List (String × String)) (d0 : Dict),
      dlookup (body.foldl
          (fun d kv => if kv.1 = "default" then dinsert d nm (stripQuotes kv.2) else d) d0) nm
        = match lastVal "default" body with
          | some v => some (stripQuotes v)
          | none => dlookup d0 nm := by
  intro body
  induction body with
  | nil => intro d0; rfl
  | cons kv rest ih =>
    intro d0
    show dlookup (rest.foldl
        (fun d kv => if kv.1 = "default" then dinsert d nm (stripQuotes kv.2) else d)
        (if kv.1 = "default" then dinsert d0 nm (stripQuotes kv.2) else d0)) nm = _
    by_cases hk : kv.1 = "default"
    · rw [if_pos hk, ih]
      cases hl : lastVal "default" rest with
      | some v => simp [lastVal, hl]
      | none => simp [lastVal, hl, hk, dlookup_dinsert_self]
    · rw [if_neg hk, ih]
      cases hl : lastVal "default" rest with
      | some v => simp [lastVal, hl]
      | none => simp [lastVal, hl, hk]

theorem lastVal_eq_none (k : String) :
    ∀ body : List (String × String), (∀ kv ∈ body, kv.1 ≠ k) → lastVal k body = none := by
  intro body
  induction body with
  | nil => intro _; rfl
  | cons kv rest ih =>
    intro h
    show (match lastVal k rest with
      | some v => some v
      | none => if kv.1 = k then some kv.2 else none) = none
    rw [ih fun p hp => h p (List.mem_cons_of_mem _ hp),
      if_neg (h kv (List.mem_cons_self _ _))]

theorem splitChar_ne_nil (sep : Char) : ∀ l : List Char, splitChar sep l ≠ [] := by
  intro l
  cases l with
  | nil => simp [splitChar]
  | cons c cs =>
    show (match splitChar sep cs with
      | [] => [[]]
      | h :: t => if c = sep then [] :: h :: t else (c :: h) :: t) ≠ []
    cases splitChar sep cs with
    | nil => simp
    | cons h t =>
      by_cases hc : c = sep <;> simp [hc]

theorem splitChar_no_sep (sep : Char) : ∀ l : List Char, sep ∉ l → splitChar sep l = [l] := by
  intro l
  induction l with
  | nil => intro _; rfl
  | cons c cs ih =>
    intro h
    have hc : c ≠ sep := fun hc => h (by rw [hc]; exact List.mem_cons_self _ _)
    have hcs : sep ∉ cs := fun hm => h (List.mem_cons_of_mem _ hm)
    show (match splitChar sep cs with
      | [] => [[]]
      | h :: t => if c = sep then [] :: h :: t else (c :: h) :: t) = [c :: cs]
    rw [ih hcs]
    change (if c = sep then [] :: cs :: ([] : List (List Char))
      else (c :: cs) :: ([] : List (List Char))) = [c :: cs]
    rw [if_neg hc]

theorem splitChar_append_sep (sep : Char) :
    ∀ (a r : List Char), sep ∉ a → splitChar sep (a ++ sep :: r) = a :: splitChar sep r := by
  intro a
  induction a with
  | nil =>
    intro r _
    show (match splitChar sep r with
      | [] => [[]]
      | h :: t => if sep = sep then [] :: h :: t else (sep :: h) :: t) = [] :: splitChar sep r
    cases hs : splitChar sep r with
    | nil => exact absurd hs (splitChar_ne_nil sep r)
    | cons h t =>
      change (if sep = sep then [] :: h :: t else (sep :: h) :: t) = [] :: h :: t
      rw [if_pos rfl]
  | cons c a' ih =>
    intro r h
    have hc : c ≠ sep := fun hc => h (by rw [hc]; exact List.mem_cons_self _ _)
    have ha : sep ∉ a' := fun hm => h (List.mem_cons_of_mem _ hm)
    show (match splitChar sep (a' ++ sep :: r) with
      | [] => [[]]
      | h :: t => if c = sep then [] :: h :: t else (c :: h) :: t) = (c :: a') :: splitChar sep r
    rw [ih r ha]
    change (if c = sep then [] :: a' :: splitChar sep r
      else (c :: a') :: splitChar sep r) = (c :: a') :: splitChar sep r
    rw [if_neg hc]

theorem enterVariable_cons (st : Listener) (n : String) (kv : String × String)
    (body : List (String × String)) :
    enterVariable st n (kv :: body)
      = enterVariable
          (if kv.1 = "default" then
            { st with vars := dinsert st.vars (stripQuotes n) (stripQuotes kv.2) }
          else st) n body := rfl

theorem enterVariable_vars (n : String) :
    ∀ (body : List (String × String)) (st : Listener),
      (enterVariable st n body).vars
        = body.foldl
            (fun d kv => if kv.1 = "default" then dinsert d (stripQuotes n) (stripQuotes kv.2) else d)
            st.vars := by
  intro body
  induction body with
  | nil => intro st; rfl
  | cons kv rest ih =>
    intro st
    rw [enterVariable_cons, ih]
    by_cases hk : kv.1 = "default" <;> simp [hk]

theorem enterVariable_token (n : String) :
    ∀ (body : List (String × String)) (st : Listener),
      (enterVariable st n body).provider_token_expr = st.provider_token_expr := by
  intro body
  induction body with
  | nil => intro st; rfl
  | cons kv rest ih =>
    intro st
    rw [enterVariable_cons]
    by_cases hk : kv.1 = "default" <;> simp [hk, ih]

theorem enterVariable_config (n : String) :
    ∀ (body : List (String × String)) (st : Listener),
      (enterVariable st n body).droplet_config = st.droplet_config := by
  intro body
  induction body with
  | nil => intro st; rfl
  | cons kv rest ih =>
    intro st
    rw [enterVariable_cons]
    by_cases hk : kv.1 = "default" <;> simp [hk, ih]

theorem enterProvider_eq_ok (st : Listener) (n : String) (body : List (String × String))
    (h : stripQuotes n = "digitalocean") :
    enterProvider st n body
      = .ok (body.foldl
          (fun st kv => if kv.1 = "token" then { st with provider_token_expr := some kv.2 } else st)
          st) := by
  simp [enterProvider, h]

theorem enterProvider_err (st : Listener) (n : String) (body : List (String × String))
    (h : stripQuotes n ≠ "digitalocean") :
    enterProvider st n body = .error (.unsupportedProvider (stripQuotes n)) := by
  simp [enterProvider, h]

theorem providerFold_vars :
    ∀ (body : List (String × String)) (st : Listener),
      (body.foldl
        (fun st kv => if kv.1 = "token" then { st with provider_token_expr := some kv.2 } else st)
        st).vars = st.vars := by
  intro body
  induction body with
  | nil => intro st; rfl
  | cons kv rest ih =>
    intro st
    by_cases hk : kv.1 = "token" <;> simp [hk, ih]

theorem providerFold_config :
    ∀ (body : List (String × String)) (st : Listener),
      (body.foldl
        (fun st kv => if kv.1 = "token" then { st with provider_token_expr := some kv.2 } else st)
        st).droplet_config = st.droplet_config := by
  intro body
  induction body with
  | nil => intro st; rfl
  | cons kv rest ih =>
    intro st
    by_cases hk : kv.1 = "token" <;> simp [hk, ih]

theorem providerFold_token :
    ∀ (body : List (String × String)) (st : Listener),
      (body.foldl
        (fun st kv => if kv.1 = "token" then { st with provider_token_expr := some kv.2 } else st)
        st).provider_token_expr
        = match lastVal "token" body with
          | some e => some e
          | none => st.provider_token_expr := by
  intro body
  induction body with
  | nil => intro st; rfl
  | cons kv rest ih =>
    intro st
    by_cases hk : kv.1 = "token" <;>
      cases hl : lastVal "token" rest <;>
        simp [hk, ih, lastVal, hl]

theorem enterResource_skip (st : Listener) (t n : String) (body : List (String × String))
    (h : stripQuotes t ≠ "digitalocean_droplet") :
    enterResource st t n body = st := by
  simp [enterResource, h]

theorem enterResource_match (st : Listener) (t n : String) (body : List (String × String))
    (h : stripQuotes t = "digitalocean_droplet") :
    enterResource st t n body
      = body.foldl
          (fun st kv => { st with droplet_config := dinsert st.droplet_config kv.1 (stripQuotes kv.2) })
          st := by
  simp [enterResource, h]

theorem resourceFold_vars :
    ∀ (body : List (String × String)) (st : Listener),
      (body.foldl
        (fun st kv => { st with droplet_config := dinsert st.droplet_config kv.1 (stripQuotes kv.2) })
        st).vars = st.vars := by
  intro body
  induction body with
  | nil => intro st; rfl
  | cons kv rest ih =>
    intro st
    simp [ih]

theorem resourceFold_token :
    ∀ (body : List (String × String)) (st : Listener),
      (body.foldl
        (fun st kv => { st with droplet_config := dinsert st.droplet_config kv.1 (stripQuotes kv.2) })
        st).provider_token_expr = st.provider_token_expr := by
  intro body
  induction body with
  | nil => intro st; rfl
  | cons kv rest ih =>
    intro st
    simp [ih]

theorem resourceFold_config :
    ∀ (body : List (String × String)) (st : Listener),
      (body.foldl
        (fun st kv => { st with droplet_config := dinsert st.droplet_config kv.1 (stripQuotes kv.2) })
        st).droplet_config
        = body.foldl (fun d kv => dinsert d kv.1 (stripQuotes kv.2)) st.droplet_config := by
  intro body
  induction body with
  | nil => intro st; rfl
  | cons kv rest ih =>
    intro st
    simp [ih]

theorem enterResource_vars (st : Listener) (t n : String) (body : List (String × String)) :
    (enterResource st t n body).vars = st.vars := by
  by_cases h : stripQuotes t = "digitalocean_droplet"
  · rw [enterResource_match st t n body h]; exact resourceFold_vars body st
  · rw [enterResource_skip st t n body h]

theorem enterResource_token (st : Listener) (t n : String) (body : List (String × String)) :
    (enterResource st t n body).provider_token_expr = st.provider_token_expr := by
  by_cases h : stripQuotes t = "digitalocean_droplet"
  · rw [enterResource_match st t n body h]; exact resourceFold_token body st
  · rw [enterResource_skip st t n body h]

theorem walkFrom_cons (st : Listener) (b : Block) (bs : List Block) :
    walkFrom st (b :: bs)
      = match walkBlock st b with
        | .error e => .error e
        | .ok st2 => walkFrom st2 bs := rfl

theorem walkFrom_ok_of_block (st st2 : Listener) (b : Block) (bs : List Block)
    (h : walkBlock st b = .ok st2) :
    walkFrom st (b :: bs) = walkFrom st2 bs := by
  rw [walkFrom_cons, h]

theorem walkFrom_err_of_block (st : Listener) (b : Block) (bs : List Block) (e : TfError)
    (h : walkBlock st b = .error e) :
    walkFrom st (b :: bs) = .error e := by
  rw [walkFrom_cons, h]

theorem walk_token_pres :
    ∀ (doc : List Block) (st : Listener),
      (∀ pname body, Block.providerBlock pname body ∈ doc →
        stripQuotes pname = "digitalocean" ∧ ∀ kv ∈ body, kv.1 ≠ "token") →
      ∃ st', walkFrom st doc = .ok st'
        ∧ st'.provider_token_expr = st.provider_token_expr := by
  intro doc
  induction doc with
  | nil => intro st _; exact ⟨st, rfl, rfl⟩
  | cons b bs ih =>
    intro st hp
    have hbs : ∀ pname body, Block.providerBlock pname body ∈ bs →
        stripQuotes pname = "digitalocean" ∧ ∀ kv ∈ body, kv.1 ≠ "token" :=
      fun pn bd hm => hp pn bd (List.mem_cons_of_mem _ hm)
    cases b with
    | variableBlock n body =>
      obtain ⟨st', h1, h2⟩ := ih (enterVariable st n body) hbs
      refine ⟨st', ?_, ?_⟩
      · rw [walkFrom_ok_of_block st (enterVariable st n body) (Block.variableBlock n body) bs rfl]
        exact h1
      · rw [h2, enterVariable_token]
    | providerBlock n body =>
      obtain ⟨hdig, htok⟩ := hp n body (List.mem_cons_self _ _)
      obtain ⟨st', h1, h2⟩ := ih (body.foldl
        (fun st kv => if kv.1 = "token" then { st with provider_token_expr := some kv.2 } else st)
        st) hbs
      refine ⟨st', ?_, ?_⟩
      · rw [walkFrom_ok_of_block st _ (Block.providerBlock n body) bs
          (enterProvider_eq_ok st n body hdig)]
        exact h1
      · rw [h2, providerFold_token, lastVal_eq_none "token" body htok]
    | resourceBlock t n body =>
      obtain ⟨st', h1, h2⟩ := ih (enterResource st t n body) hbs
      refine ⟨st', ?_, ?_⟩
      · rw [walkFrom_ok_of_block st (enterResource st t n body) (Block.resourceBlock t n body) bs rfl]
        exact h1
      · rw [h2, enterResource_token]

theorem walk_config_pres :
    ∀ (doc : List Block) (st st' : Listener),
      (∀ t n body, Block.resourceBlock t n body ∈ doc → stripQuotes t ≠ "digitalocean_droplet") →
      walkFrom st doc = .ok st' → st'.droplet_config = st.droplet_config := by
  intro doc
  induction doc with
  | nil =>
    intro st st' _ hw
    have h := Except.ok.inj hw
    rw [← h]
  | cons b bs ih =>
    intro st st' hr hw
    have hbs : ∀ t n body, Block.resourceBlock t n body ∈ bs →
        stripQuotes t ≠ "digitalocean_droplet" :=
      fun t n bd hm => hr t n bd (List.mem_cons_of_mem _ hm)
    cases b with
    | variableBlock n body =>
      rw [walkFrom_ok_of_block st (enterVariable st n body) (Block.variableBlock n body) bs rfl] at hw
      rw [ih (enterVariable st n body) st' hbs hw, enterVariable_config]
    | providerBlock n body =>
      by_cases hdig : stripQuotes n = "digitalocean"
      · rw [walkFrom_ok_of_block st _ (Block.providerBlock n body) bs
          (enterProvider_eq_ok st n body hdig)] at hw
        rw [ih _ st' hbs hw, providerFold_config]
      · rw [walkFrom_err_of_block st (Block.providerBlock n body) bs _
          (enterProvider_err st n body hdig)] at hw
        exact Except.noConfusion hw
    | resourceBlock t n body =>
      have hskip := enterResource_skip st t n body (hr t n body (List.mem_cons_self _ _))
      rw [walkFrom_ok_of_block st (enterResource st t n body) (Block.resourceBlock t n body) bs rfl,
        hskip] at hw
      exact ih st st' hbs hw

theorem walkBlock_error_elim (st : Listener) (b : Block) (e : TfError)
    (h : walkBlock st b = .error e) :
    ∃ m, m ≠ "digitalocean" ∧ e = .unsupportedProvider m := by
  cases b with
  | variableBlock n body => exact Except.noConfusion h
  | resourceBlock t n body => exact Except.noConfusion h
  | providerBlock n body =>
    by_cases hdig : stripQuotes n = "digitalocean"
    · rw [show walkBlock st (Block.providerBlock n body) = enterProvider st n body from rfl,
        enterProvider_eq_ok st n body hdig] at h
      exact Except.noConfusion h
    · rw [show walkBlock st (Block.providerBlock n body) = enterProvider st n body from rfl,
        enterProvider_err st n body hdig] at h
      exact ⟨stripQuotes n, hdig, (Except.error.inj h).symm⟩

theorem walk_bad_provider :
    ∀ (doc : List Block) (st : Listener),
      (∃ pname body, Block.providerBlock pname body ∈ doc ∧ stripQuotes pname ≠ "digitalocean") →
      ∃ m, m ≠ "digitalocean" ∧ walkFrom st doc = .error (.unsupportedProvider m) := by
  intro doc
  induction doc with
  | nil =>
    rintro st ⟨pn, bd, hm, _⟩
    cases hm
  | cons b bs ih =>
    rintro st ⟨pn, bd, hm, hbad⟩
    cases hwb : walkBlock st b with
    | error e =>
      obtain ⟨m, hm1, hm2⟩ := walkBlock_error_elim st b e hwb
      exact ⟨m, hm1, by rw [walkFrom_err_of_block st b bs e hwb, hm2]⟩
    | ok st2 =>
      rcases List.mem_cons.mp hm with heq | hmem
      · rw [← heq] at hwb
        rw [show walkBlock st (Block.providerBlock pn bd) = enterProvider st pn bd from rfl,
          enterProvider_err st pn bd hbad] at hwb
        exact Except.noConfusion hwb
      · obtain ⟨m, h1, h2⟩ := ih st2 ⟨pn, bd, hmem, hbad⟩
        exact ⟨m, h1, by rw [walkFrom_ok_of_block st st2 b bs hwb]; exact h2⟩

theorem resolve_token_of_none (st : Listener) (h : st.provider_token_expr = none) :
    resolve_token st = .error .missingToken := by
  simp [resolve_token, h]

theorem resolve_token_lookup (vars cfg : Dict) (t nm : String)
    (h1 : t.data ≠ [])
    (h2 : pyStartsWith t.data "var.".data = true)
    (h3 : ((splitChar '.' t.data).drop 1).headD [] = nm.data) :
    resolve_token { vars := vars, provider_token_expr := some t, droplet_config := cfg }
      = match dlookup vars nm with
        | some v => Except.ok v
        | none => Except.error (.undefinedVariable nm) := by
  have hnm : (⟨((splitChar '.' t.data).drop 1).headD []⟩ : String) = nm := by
    rw [h3]
  simp only [resolve_token, if_neg h1, h2, if_true, hnm]

theorem poll_none_of_never (api : Api) (tk : String) (id : Nat)
    (h : ∀ n, publicIps (api.read tk id n) = []) :
    ∀ (fuel attempt : Nat), (poll api tk id fuel attempt).1 = none := by
  intro fuel
  induction fuel with
  | zero => intro att; rfl
  | succ f ih =>
    intro att
    simp only [poll, h att]
    exact ih (att + 1)

theorem poll_isSome_iff (api : Api) (tk : String) (id : Nat) :
    ∀ (fuel attempt : Nat),
      (poll api tk id fuel attempt).1.isSome
        ↔ ∃ k, k < fuel ∧ publicIps (api.read tk id (attempt + k)) ≠ [] := by
  intro fuel
  induction fuel with
  | zero =>
    intro att
    simp [poll]
  | succ f ih =>
    intro att
    cases hp : publicIps (api.read tk id att) with
    | nil =>
      simp only [poll, hp]
      rw [ih (att + 1)]
      constructor
      · rintro ⟨k, hk, hne⟩
        refine ⟨k + 1, by omega, ?_⟩
        have hsh : att + (k + 1) = att + 1 + k := by omega
        rw [hsh]
        exact hne
      · rintro ⟨k, hk, hne⟩
        cases k with
        | zero =>
          rw [Nat.add_zero] at hne
          exact absurd hp hne
        | succ k' =>
          refine ⟨k', by omega, ?_⟩
          have hsh : att + 1 + k' = att + (k' + 1) := by omega
          rw [hsh]
          exact hne
    | cons ip tl =>
      simp only [poll, hp]
      constructor
      · intro _
        refine ⟨0, by omega, ?_⟩
        rw [Nat.add_zero, hp]
        simp
      · intro _
        simp

/-- C1, counterexample: two saved configurations that differ only in their
`region` load back identically, so `load` cannot return a record equal in all
fields (id, name, region, size, image, address) to the one saved — region,
size and image are persisted but dropped on load. -/
theorem c1_save_load_counterexample :
    ([("name", "web"), ("region", "nyc1"), ("size", "s-1vcpu-1gb"), ("image", "ubuntu-22-04-x64")] : Dict)
      ≠ [("name", "web"), ("region", "sfo2"), ("size", "s-1vcpu-1gb"), ("image", "ubuntu-22-04-x64")]
    ∧ load_state_file (save_state_file
        [("name", "web"), ("region", "nyc1"), ("size", "s-1vcpu-1gb"), ("image", "ubuntu-22-04-x64")]
        42 "1.2.3.4")
      = load_state_file (save_state_file
        [("name", "web"), ("region", "sfo2"), ("size", "s-1vcpu-1gb"), ("image", "ubuntu-22-04-x64")]
        42 "1.2.3.4") :=
  ⟨by decide, rfl⟩

/-- C1, amended: `save` followed by `load` returns a record whose stringified
remote id, name and network address equal those saved (region, size and image
are persisted in the state file but not part of the loaded record); `clear`
followed by `load` returns absent. -/
theorem c1_save_load_roundtrip (cfg : Dict) (droplet_id : Nat) (ip n r s i : String)
    (hn : dlookup cfg "name" = some n) (hr : dlookup cfg "region" = some r)
    (hs : dlookup cfg "size" = some s) (hi : dlookup cfg "image" = some i) :
    load_state_file (save_state_file cfg droplet_id ip)
      = some { id := toString droplet_id, name := n, ip := ip }
    ∧ ∀ fs, load_state_file (clear_state fs) = none := by
  refine ⟨?_, fun fs => rfl⟩
  simp [save_state_file, hn, hr, hs, hi, load_state_file, findDroplet]

/-- Witness for C1: the round trip at a concrete configuration. -/
theorem c1_save_load_roundtrip_witness :
    load_state_file (save_state_file
        [("name", "web"), ("region", "nyc3"), ("size", "s-1vcpu-1gb"), ("image", "ubuntu-22-04-x64")]
        42 "203.0.113.5")
      = some { id := toString 42, name := "web", ip := "203.0.113.5" }
    ∧ ∀ fs, load_state_file (clear_state fs) = none :=
  c1_save_load_roundtrip
    [("name", "web"), ("region", "nyc3"), ("size", "s-1vcpu-1gb"), ("image", "ubuntu-22-04-x64")]
    42 "203.0.113.5" "web" "nyc3" "s-1vcpu-1gb" "ubuntu-22-04-x64" rfl rfl rfl rfl

/-- C2: for every variable table and dot-free name, resolving the token
expression `var.<name>` returns the table's value for `<name>` when it is
present (in particular the recorded default of a declaring variable block),
and fails with the undefined-variable error naming `<name>` otherwise. -/
theorem c2_var_reference_resolution (vars cfg : Dict) (name : String)
    (h : '.' ∉ name.data) :
    (∀ v, dlookup vars name = some v →
      resolve_token (Listener.mk vars (some ("var." ++ name)) cfg) = .ok v)
    ∧ (dlookup vars name = none →
      resolve_token (Listener.mk vars (some ("var." ++ name)) cfg)
        = .error (.undefinedVariable name)) := by
  have hdata : ("var." ++ name).data = 'v' :: 'a' :: 'r' :: '.' :: name.data := by
    simp [String.data_append]
  have h1 : ("var." ++ name).data ≠ [] := by rw [hdata]; simp
  have h2 : pyStartsWith ("var." ++ name).data "var.".data = true := by
    rw [hdata]
    show pyStartsWith ('v' :: 'a' :: 'r' :: '.' :: name.data) ['v', 'a', 'r', '.'] = true
    simp [pyStartsWith]
  have h3 : ((splitChar '.' ("var." ++ name).data).drop 1).headD [] = name.data := by
    rw [hdata]
    have hv : ('v' :: 'a' :: 'r' :: '.' :: name.data)
        = ['v', 'a', 'r'] ++ '.' :: name.data := rfl
    rw [hv, splitChar_append_sep '.' ['v', 'a', 'r'] name.data (by decide),
      splitChar_no_sep '.' name.data h]
    rfl
  have hmain := resolve_token_lookup vars cfg ("var." ++ name) name h1 h2 h3
  constructor
  · intro v hv
    rw [hmain, hv]
  · intro hv
    rw [hmain, hv]

/-- Witness for C2: a declared name resolves to its default, an undeclared
name fails naming it. -/
theorem c2_var_reference_resolution_witness :
    resolve_token (Listener.mk [("token", "abc123")] (some ("var." ++ "token")) []) = .ok "abc123"
    ∧ resolve_token (Listener.mk [("token", "abc123")] (some ("var." ++ "missing")) [])
      = .error (.undefinedVariable "missing") :=
  ⟨(c2_var_reference_resolution [("token", "abc123")] [] "token" (by decide)).1 "abc123" rfl,
   (c2_var_reference_resolution [("token", "abc123")] [] "missing" (by decide)).2 rfl⟩

/-- C3: when every provider block of the document is the supported
`digitalocean` one and none of them declares a `token` key, apply fails with
the missing-token error and the remote-call trace is empty (no create call
ever happens). -/
theorem c3_missing_token_no_create (api : Api) (doc : List Block) (fuel : Nat)
    (hp : ∀ pname body, Block.providerBlock pname body ∈ doc →
      stripQuotes pname = "digitalocean" ∧ ∀ kv ∈ body, kv.1 ≠ "token") :
    terraform_apply api doc fuel = (.failure .missingToken, [], none) := by
  obtain ⟨st', h1, h2⟩ := walk_token_pres doc initListener hp
  have h1' : walkDoc doc = .ok st' := h1
  have htok : resolve_token st' = .error .missingToken :=
    resolve_token_of_none st' (by rw [h2]; rfl)
  simp only [terraform_apply, h1', htok]

/-- Witness for C3: a document whose provider block has no token key. -/
theorem c3_missing_token_no_create_witness :
    terraform_apply api0
      [Block.providerBlock "\"digitalocean\"" [("region", "\"nyc3\"")],
        Block.resourceBlock "\"digitalocean_droplet\"" "\"web\"" [("name", "\"x\"")]] 5
      = (.failure .missingToken, [], none) :=
  c3_missing_token_no_create api0
    [Block.providerBlock "\"digitalocean\"" [("region", "\"nyc3\"")],
      Block.resourceBlock "\"digitalocean_droplet\"" "\"web\"" [("name", "\"x\"")]] 5
    (by
      intro pn bd hm
      rcases List.mem_cons.mp hm with h | h
      · injection h with hn hb
        subst hn
        subst hb
        refine ⟨by decide, ?_⟩
        intro kv hkv
        cases hkv with
        | head => decide
        | tail _ htl => cases htl
      · rcases List.mem_cons.mp h with h | h
        · exact Block.noConfusion h
        · cases h)

/-- C4: a document containing a provider block whose stripped name is not
`digitalocean` makes interpretation fail with the unsupported-provider error,
and apply fails the same way with an empty remote-call trace. -/
theorem c4_unsupported_provider (api : Api) (doc : List Block) (fuel : Nat)
    (pname : String) (body : List (String × String))
    (hmem : Block.providerBlock pname body ∈ doc)
    (hbad : stripQuotes pname ≠ "digitalocean") :
    ∃ m, m ≠ "digitalocean"
      ∧ walkDoc doc = .error (.unsupportedProvider m)
      ∧ terraform_apply api doc fuel = (.failure (.unsupportedProvider m), [], none) := by
  obtain ⟨m, hm1, hm2⟩ := walk_bad_provider doc initListener ⟨pname, body, hmem, hbad⟩
  have hm2' : walkDoc doc = .error (.unsupportedProvider m) := hm2
  exact ⟨m, hm1, hm2', by simp only [terraform_apply, hm2']⟩

/-- Witness for C4: an `aws` provider block. -/
theorem c4_unsupported_provider_witness :
    ∃ m, m ≠ "digitalocean"
      ∧ walkDoc [Block.providerBlock "\"aws\"" []] = .error (.unsupportedProvider m)
      ∧ terraform_apply api0 [Block.providerBlock "\"aws\"" []] 3
        = (.failure (.unsupportedProvider m), [], none) :=
  c4_unsupported_provider api0 [Block.providerBlock "\"aws\"" []] 3 "\"aws\"" []
    (List.mem_cons_self _ _) (by decide)

/-- C5: when every resource block of the document has a type other than
`digitalocean_droplet`, the droplet config stays empty, and apply (once the
token resolves) fails with the missing-resource error with an empty
remote-call trace. -/
theorem c5_no_matching_resource (api : Api) (doc : List Block) (fuel : Nat)
    (st : Listener) (tok : String)
    (hwalk : walkDoc doc = .ok st)
    (htok : resolve_token st = .ok tok)
    (hres : ∀ t n body, Block.resourceBlock t n body ∈ doc →
      stripQuotes t ≠ "digitalocean_droplet") :
    st.droplet_config = [] ∧ terraform_apply api doc fuel = (.failure .missingResource, [], none) := by
  have hcfg : st.droplet_config = [] := walk_config_pres doc initListener st hres hwalk
  refine ⟨hcfg, ?_⟩
  simp [terraform_apply, hwalk, htok, hcfg]

/-- Witness for C5: a document whose only resource block is an `aws_instance`. -/
theorem c5_no_matching_resource_witness :
    (Listener.mk [("t", "abc123")] (some "var.t") []).droplet_config = []
    ∧ terraform_apply api0
        [Block.variableBlock "\"t\"" [("default", "\"abc123\"")],
          Block.providerBlock "\"digitalocean\"" [("token", "var.t")],
          Block.resourceBlock "\"aws_instance\"" "\"x\"" [("name", "\"y\"")]] 3
      = (.failure .missingResource, [], none) :=
  c5_no_matching_resource api0
    [Block.variableBlock "\"t\"" [("default", "\"abc123\"")],
      Block.providerBlock "\"digitalocean\"" [("token", "var.t")],
      Block.resourceBlock "\"aws_instance\"" "\"x\"" [("name", "\"y\"")]] 3
    (Listener.mk [("t", "abc123")] (some "var.t") [])
    "abc123" rfl rfl
    (by
      intro t n bd hm
      rcases List.mem_cons.mp hm with h | h
      · exact Block.noConfusion h
      · rcases List.mem_cons.mp h with h | h
        · exact Block.noConfusion h
        · rcases List.mem_cons.mp h with h | h
          · injection h with ht hn hb
            subst ht
            decide
          · cases h)

/-- C6: with no persisted state record, destroy reports nothing-to-do and
terminates successfully for every input document, with no remote call and the
state slot untouched — document contents are never consulted. -/
theorem c6_destroy_without_state (doc : List Block) :
    terraform_destroy doc none = (.nothingToDo, [], none) := rfl

/-- C7: the readiness-polling loop is unbounded: with a read collaborator
that never reports a public address, no amount of fuel makes the loop yield
an address (so the source's `while True` never exits, and apply stalls for
every fuel); and the loop yields an address exactly when some read attempt
within the fuel returns a non-empty public-address list. -/
theorem c7_polling_unbounded (api : Api) :
    ((∀ tk id, (∀ n, publicIps (api.read tk id n) = []) →
        ∀ fuel attempt, (poll api tk id fuel attempt).1 = none)
      ∧ ∀ tk id fuel attempt,
          (poll api tk id fuel attempt).1.isSome
            ↔ ∃ k, k < fuel ∧ publicIps (api.read tk id (attempt + k)) ≠ [])
    ∧ ∀ doc listener token nm rg sz im,
        walkDoc doc = .ok listener →
        resolve_token listener = .ok token →
        listener.droplet_config ≠ [] →
        dlookup listener.droplet_config "name" = some nm →
        dlookup listener.droplet_config "region" = some rg →
        dlookup listener.droplet_config "size" = some sz →
        dlookup listener.droplet_config "image" = some im →
        (∀ n, publicIps (api.read token (api.create token nm rg sz im) n) = []) →
        ∀ fuel, (terraform_apply api doc fuel).1 = .stalled := by
  refine ⟨⟨fun tk id hn fuel att => poll_none_of_never api tk id hn fuel att,
    fun tk id fuel att => poll_isSome_iff api tk id fuel att⟩, ?_⟩
  intro doc listener token nm rg sz im hwalk htok hne hnm hrg hsz him hnever fuel
  have hpoll := poll_none_of_never api token (api.create token nm rg sz im) hnever fuel 0
  simp [terraform_apply, hwalk, htok, hne, create_droplet, hnm, hrg, hsz, him, hpoll]

/-- Witness for C7: an API whose reads report no networks stalls the loop at
a concrete fuel. -/
theorem c7_polling_unbounded_witness :
    (poll api0 "tok" 7 25 0).1 = none :=
  (c7_polling_unbounded api0).1.1 "tok" 7 (fun _ => rfl) 25 0

/-- C8: duplicate declarations follow last-write-wins: within a matching
resource block the config records the stripped value of the last occurrence
of a key, and when two variable blocks redeclare the same name the table holds
the stripped default of the second block. -/
theorem c8_last_write_wins :
    (∀ (st : Listener) (rtype rname : String) (body : List (String × String)) (k v : String),
      stripQuotes rtype = "digitalocean_droplet" →
      lastVal k body = some v →
      dlookup (enterResource st rtype rname body).droplet_config k = some (stripQuotes v))
    ∧ ∀ (st : Listener) (qn : String) (b1 b2 : List (String × String)) (d2 : String),
        lastVal "default" b2 = some d2 →
        dlookup (enterVariable (enterVariable st qn b1) qn b2).vars (stripQuotes qn)
          = some (stripQuotes d2) := by
  constructor
  · intro st rtype rname body k v hm hl
    rw [enterResource_match st rtype rname body hm, resourceFold_config,
      dlookup_foldl_dinsert stripQuotes k body st.droplet_config, hl]
  · intro st qn b1 b2 d2 hl
    rw [enterVariable_vars qn b2, dlookup_foldl_default (stripQuotes qn) b2, hl]

/-- Witness for C8: a duplicated resource attribute keeps the second value,
and a redeclared variable keeps the second block's default. -/
theorem c8_last_write_wins_witness :
    dlookup (enterResource initListener "\"digitalocean_droplet\"" "\"web\""
        [("name", "\"a\""), ("name", "\"b\"")]).droplet_config "name" = some "b"
    ∧ dlookup (enterVariable (enterVariable initListener "\"x\"" [("default", "\"1\"")])
        "\"x\"" [("default", "\"2\"")]).vars "x" = some "2" :=
  ⟨c8_last_write_wins.1 initListener "\"digitalocean_droplet\"" "\"web\""
      [("name", "\"a\""), ("name", "\"b\"")] "name" "\"b\"" rfl rfl,
   c8_last_write_wins.2 initListener "\"x\"" [("default", "\"1\"")] [("default", "\"2\"")]
      "\"2\"" rfl⟩

/-- C9, counterexample: the empty quoted literal is stored as the two-character
text of two quote marks, which is truthy, so resolution returns the empty
string rather than failing with the missing-token error. -/
theorem c9_empty_literal_counterexample :
    resolve_token (Listener.mk [] (some "\"\"") []) = .ok ""
    ∧ resolve_token (Listener.mk [] (some "\"\"") []) ≠ .error .missingToken :=
  ⟨rfl, by decide⟩

/-- C9, amended: resolution fails with the missing-token error exactly when
the stored token expression is absent or is the empty text; the empty quoted
literal (raw text of two quote characters) is non-empty and resolves to the
empty string. -/
theorem c9_falsy_token_amended (vars cfg : Dict) :
    resolve_token (Listener.mk vars none cfg) = .error .missingToken
    ∧ resolve_token (Listener.mk vars (some "") cfg) = .error .missingToken
    ∧ resolve_token (Listener.mk vars (some "\"\"") cfg) = .ok "" :=
  ⟨rfl, rfl, rfl⟩

/-- C10: a token expression `var.` followed by a dot-free segment, a dot and
an arbitrary remainder resolves using only the segment between the first and
second dot as the variable name: it yields that variable's value when it is
declared and fails naming only that segment otherwise. -/
theorem c10_multidot_uses_first_segment (vars cfg : Dict) (a rest : String)
    (h : '.' ∉ a.data) :
    (∀ v, dlookup vars a = some v →
      resolve_token (Listener.mk vars (some ("var." ++ a ++ "." ++ rest)) cfg) = .ok v)
    ∧ (dlookup vars a = none →
      resolve_token (Listener.mk vars (some ("var." ++ a ++ "." ++ rest)) cfg)
        = .error (.undefinedVariable a)) := by
  have hdata : ("var." ++ a ++ "." ++ rest).data
      = 'v' :: 'a' :: 'r' :: '.' :: (a.data ++ '.' :: rest.data) := by
    simp [String.data_append]
  have h1 : ("var." ++ a ++ "." ++ rest).data ≠ [] := by rw [hdata]; simp
  have h2 : pyStartsWith ("var." ++ a ++ "." ++ rest).data "var.".data = true := by
    rw [hdata]
    show pyStartsWith ('v' :: 'a' :: 'r' :: '.' :: (a.data ++ '.' :: rest.data))
      ['v', 'a', 'r', '.'] = true
    simp [pyStartsWith]
  have h3 : ((splitChar '.' ("var." ++ a ++ "." ++ rest).data).drop 1).headD [] = a.data := by
    rw [hdata]
    have hv : ('v' :: 'a' :: 'r' :: '.' :: (a.data ++ '.' :: rest.data))
        = ['v', 'a', 'r'] ++ '.' :: (a.data ++ '.' :: rest.data) := rfl
    rw [hv, splitChar_append_sep '.' ['v', 'a', 'r'] (a.data ++ '.' :: rest.data) (by decide),
      splitChar_append_sep '.' a.data rest.data h]
    rfl
  have hmain := resolve_token_lookup vars cfg ("var." ++ a ++ "." ++ rest) a h1 h2 h3
  constructor
  · intro v hv
    rw [hmain, hv]
  · intro hv
    rw [hmain, hv]

/-- Witness for C10: `var.a.b.c` resolves via `a` alone — it finds a declared
`a` even when `a.b.c` is also declared, and names `a` in the failure when `a`
is undeclared. -/
theorem c10_multidot_uses_first_segment_witness :
    resolve_token (Listener.mk [("a", "1"), ("a.b.c", "9")]
      (some ("var." ++ "a" ++ "." ++ "b.c")) []) = .ok "1"
    ∧ resolve_token (Listener.mk [("z", "1")]
      (some ("var." ++ "a" ++ "." ++ "b.c")) []) = .error (.undefinedVariable "a") :=
  ⟨(c10_multidot_uses_first_segment [("a", "1"), ("a.b.c", "9")] [] "a" "b.c" (by decide)).1
      "1" rfl,
   (c10_multidot_uses_first_segment [("z", "1")] [] "a" "b.c" (by decide)).2 rfl⟩

end TerraformSubset
